import Mathlib

/-!
Verification of the mini_modelvault request-routing layer.

Shallow embedding of the Python sources:
  * `src/mini_modelvault/router/router.py` (`ModelRouter`)
  * `src/mini_modelvault/services/inference_service.py` (`InferenceService`)
  * `src/mini_modelvault/utils/image_handler.py` (`handle_image`)

External collaborators (the Ollama backends, the filesystem) are modelled as
an explicit environment of deterministic functions; machine effects (logging,
backend invocations) are returned as explicit traces.  Python `str.lower` /
`str.strip` are modelled on their ASCII fragment via `Char.toLower` /
`Char.isWhitespace`, which agree with CPython on ASCII input.
-/

namespace MiniModelVault

/-! ### Python string primitives -/

/-- Embedding of Python `str.lower()` (ASCII fragment). -/
def pyLower (s : String) : String := String.mk (s.data.map Char.toLower)

/-- Embedding of Python `str.strip()` (ASCII whitespace fragment): drop
whitespace from both ends. -/
def pyStrip (s : String) : String :=
  String.mk (((s.data.dropWhile Char.isWhitespace).reverse.dropWhile
    Char.isWhitespace).reverse)

/-- Python truthiness of an optional string (`None` and `""` are falsy). -/
def strTruthy : Option String → Bool
  | none => false
  | some s => !s.isEmpty

/-! ### The classifier regex  `\b(general|coding|vision)\b`

`router.py` line 85:
  `match = re.search(r'\b(general|coding|vision)\b', result.lower())`.
`re.search` scans start positions left to right and, at each position, tries
the alternatives in order; `\b` demands a word/non-word boundary.  We embed
that scan directly over the lowercased character list. -/

/-- Python regex word character (`\w`), ASCII fragment: `[A-Za-z0-9_]`. -/
def isWordChar (c : Char) : Bool := c.isAlphanum || c == '_'

/-- The three alternative words of the router classifier's pattern. -/
def routerWords : List (List Char) :=
  ["general".data, "coding".data, "vision".data]

/-- Boundary condition on the left of position `i`: start of string or a
non-word character just before.  For the words of `routerWords` (which start
with a letter) this is exactly `\b`. -/
def boundaryBefore (cs : List Char) (i : Nat) : Bool :=
  match i with
  | 0 => true
  | j + 1 =>
    match cs.get? j with
    | some c => !isWordChar c
    | none => true

/-- Boundary condition at position `i` on the right of a match: end of string
or a non-word character at `i`.  For the words of `routerWords` (which end
with a letter) this is exactly `\b`. -/
def boundaryAfter (cs : List Char) (i : Nat) : Bool :=
  match cs.get? i with
  | some c => !isWordChar c
  | none => true

/-- Does word `w` occur literally at position `i` of `cs`? -/
def matchesAt (cs : List Char) (i : Nat) (w : List Char) : Bool :=
  (cs.drop i).take w.length == w

/-- Whole-word occurrence of `w` at position `i` of `cs`: both boundaries
hold and the characters coincide. -/
def wholeWordAt (cs : List Char) (i : Nat) (w : List Char) : Bool :=
  boundaryBefore cs i && matchesAt cs i w && boundaryAfter cs (i + w.length)

/-- Attempt of the alternation `(general|coding|vision)` (in that order, as
`re` does) as a whole word at position `i`. -/
def tryWordsAt (cs : List Char) (i : Nat) : Option (List Char) :=
  if wholeWordAt cs i "general".data then some "general".data
  else if wholeWordAt cs i "coding".data then some "coding".data
  else if wholeWordAt cs i "vision".data then some "vision".data
  else none

/-- Left-to-right scan of `re.search` starting at position `i`, with enough
fuel to cover every start position. -/
def searchAux (cs : List Char) : Nat → Nat → Option (List Char)
  | _, 0 => none
  | i, fuel + 1 =>
    match tryWordsAt cs i with
    | some w => some w
    | none => searchAux cs (i + 1) fuel

/-- Embedding of `re.search(r'\b(general|coding|vision)\b', cs)`: the matched
word, if any. -/
def reSearchWords (cs : List Char) : Option (List Char) :=
  searchAux cs 0 (cs.length + 1)

/-! ### `ModelRouter._classify` (router.py lines 73-91)

The raw backend response is a parameter; `_classify` lowercases it, runs the
regex search, and falls back to `result.strip().lower()` when no word
matches. -/

/-- The prompt `_classify` sends to the router chain (router.py line 84). -/
def classifyPrompt (inputText : String) : String :=
  "Classify the following input into one of: general, coding, vision:\n"
    ++ inputText

/-- Pure core of `ModelRouter._classify`: label extraction from the raw
backend response (router.py lines 85-91). -/
def classifyResult (result : String) : String :=
  match reSearchWords (pyLower result).data with
  | some w => String.mk w
  | none => pyLower (pyStrip result)

/-! ### Characterization of the regex scan -/

lemma tryWordsAt_some {cs : List Char} {i : Nat} {w : List Char}
    (h : tryWordsAt cs i = some w) :
    w ∈ routerWords ∧ wholeWordAt cs i w = true := by
  unfold tryWordsAt at h
  split_ifs at h with h1 h2 h3
  · injection h with h; subst h; exact ⟨by simp [routerWords], h1⟩
  · injection h with h; subst h; exact ⟨by simp [routerWords], h2⟩
  · injection h with h; subst h; exact ⟨by simp [routerWords], h3⟩

lemma tryWordsAt_none {cs : List Char} {i : Nat}
    (h : tryWordsAt cs i = none) :
    ∀ v ∈ routerWords, wholeWordAt cs i v = false := by
  unfold tryWordsAt at h
  split_ifs at h with h1 h2 h3
  · intro v hv
    simp only [routerWords, List.mem_cons, List.not_mem_nil, or_false] at hv
    rcases hv with rfl | rfl | rfl
    · simpa using h1
    · simpa using h2
    · simpa using h3

lemma searchAux_some {cs : List Char} :
    ∀ (fuel i : Nat) {w : List Char}, searchAux cs i fuel = some w →
      ∃ j, i ≤ j ∧ j < i + fuel ∧ w ∈ routerWords ∧ wholeWordAt cs j w = true ∧
        ∀ k, i ≤ k → k < j → ∀ v ∈ routerWords, wholeWordAt cs k v = false := by
  intro fuel
  induction fuel with
  | zero => intro i w h; simp [searchAux] at h
  | succ n ih =>
    intro i w h
    unfold searchAux at h
    cases htry : tryWordsAt cs i with
    | some v =>
      rw [htry] at h
      injection h with h
      subst h
      obtain ⟨hmem, hww⟩ := tryWordsAt_some htry
      exact ⟨i, Nat.le_refl i, by omega, hmem, hww,
        fun k hk1 hk2 => absurd hk1 (by omega)⟩
    | none =>
      rw [htry] at h
      obtain ⟨j, hij, hjf, hmem, hww, hmin⟩ := ih (i + 1) h
      refine ⟨j, by omega, by omega, hmem, hww, ?_⟩
      intro k hk1 hk2 v hv
      rcases Nat.eq_or_lt_of_le hk1 with rfl | hlt
      · exact tryWordsAt_none htry v hv
      · exact hmin k hlt hk2 v hv

lemma searchAux_none {cs : List Char} :
    ∀ (fuel i : Nat), searchAux cs i fuel = none →
      ∀ j, i ≤ j → j < i + fuel → ∀ v ∈ routerWords, wholeWordAt cs j v = false := by
  intro fuel
  induction fuel with
  | zero => intro i _ j h1 h2; omega
  | succ n ih =>
    intro i h j h1 h2 v hv
    unfold searchAux at h
    cases htry : tryWordsAt cs i with
    | some u => rw [htry] at h; exact absurd h (by simp)
    | none =>
      rw [htry] at h
      rcases Nat.eq_or_lt_of_le h1 with rfl | hlt
      · exact tryWordsAt_none htry v hv
      · exact ih (i + 1) h j hlt (by omega) v hv

lemma routerWords_ne_nil {w : List Char} (hw : w ∈ routerWords) : w ≠ [] := by
  simp only [routerWords, List.mem_cons, List.not_mem_nil, or_false] at hw
  rcases hw with rfl | rfl | rfl <;> simp

lemma wholeWordAt_of_ge_length {cs : List Char} {i : Nat} {w : List Char}
    (hw : w ∈ routerWords) (h : cs.length ≤ i) : wholeWordAt cs i w = false := by
  have hdrop : cs.drop i = [] := List.drop_eq_nil_of_le h
  have hmatch : matchesAt cs i w = false := by
    unfold matchesAt
    rw [hdrop]
    simp only [List.take_nil]
    cases w with
    | nil => exact absurd rfl (routerWords_ne_nil hw)
    | cons c cs' => rfl
  unfold wholeWordAt
  rw [hmatch]
  simp

lemma reSearchWords_some {cs : List Char} {w : List Char}
    (h : reSearchWords cs = some w) :
    ∃ j, w ∈ routerWords ∧ wholeWordAt cs j w = true ∧
      ∀ k, k < j → ∀ v ∈ routerWords, wholeWordAt cs k v = false := by
  obtain ⟨j, _, _, hmem, hww, hmin⟩ := searchAux_some (cs.length + 1) 0 h
  exact ⟨j, hmem, hww, fun k hk => hmin k (Nat.zero_le k) hk⟩

lemma reSearchWords_none {cs : List Char}
    (h : reSearchWords cs = none) :
    ∀ j, ∀ v ∈ routerWords, wholeWordAt cs j v = false := by
  intro j v hv
  by_cases hj : j < cs.length + 1
  · exact searchAux_none (cs.length + 1) 0 h j (Nat.zero_le j) (by omega) v hv
  · exact wholeWordAt_of_ge_length hv (by omega)

/-- C5: `_classify` returns the first (leftmost) whole-word match among
general/coding/vision in the lowercased backend response; with no match it
returns the stripped, lowercased response unchanged (and, being a total
function, never raises). -/
theorem classify_first_whole_word_or_fallback (result : String) :
    (∃ w j, w ∈ routerWords ∧ classifyResult result = String.mk w ∧
        wholeWordAt (pyLower result).data j w = true ∧
        ∀ k, k < j → ∀ v ∈ routerWords,
          wholeWordAt (pyLower result).data k v = false)
    ∨ ((∀ j, ∀ v ∈ routerWords,
          wholeWordAt (pyLower result).data j v = false) ∧
        classifyResult result = pyLower (pyStrip result)) := by
  unfold classifyResult
  cases h : reSearchWords (pyLower result).data with
  | some w =>
    left
    obtain ⟨j, hmem, hww, hmin⟩ := reSearchWords_some h
    exact ⟨w, j, hmem, rfl, hww, hmin⟩
  | none =>
    right
    exact ⟨reSearchWords_none h, rfl⟩

/-! ### Backend environment, effects and errors

The Ollama backends and the filesystem are external collaborators; they are
modelled as an environment of deterministic functions.  Backend responses
are modelled by their text content (`AIMessage.content`). -/

/-- Errors raised by the routing layer. -/
inductive Err
  | imageError (path : String)
  | keyError (key : String)
deriving DecidableEq, Repr

/-- Backend invocations performed by the router, in order. -/
inductive Call
  | classifyCall (prompt : String)
  | invokeGeneral (text : String)
  | invokeCoding (text : String)
  | invokeVision (text : String) (imageUrl : String)
  | streamGeneral (text : String)
  | streamCoding (text : String)
  | streamVision (text : String) (imageUrl : String)
deriving DecidableEq, Repr

/-- Deterministic external world: the three chat backends (complete response
and fragment sequence per input) plus the router chain and the filesystem. -/
structure Env where
  classifierResp : String → String
  generalResp : String → String
  codingResp : String → String
  visionResp : String → String → String
  generalFrags : String → List String
  codingFrags : String → List String
  visionFrags : String → String → List String
  readFile : String → Option (List Nat)

/-! ### `base64.b64encode` (standard RFC 4648 alphabet) -/

/-- The base64 alphabet used by `base64.b64encode`. -/
def base64Table : List Char :=
  "ABCDEFGHIJKLMNOPQRSTUVWXYZabcdefghijklmnopqrstuvwxyz0123456789+/".data

/-- The base64 digit for a 6-bit value. -/
def base64Digit (n : Nat) : Char := base64Table.getD n 'A'

/-- Base64 encoding of a byte list (bytes as naturals below 256). -/
def b64encode : List Nat → List Char
  | [] => []
  | [a] => [base64Digit (a / 4), base64Digit (a % 4 * 16), '=', '=']
  | [a, b] => [base64Digit (a / 4), base64Digit (a % 4 * 16 + b / 16),
      base64Digit (b % 16 * 4), '=']
  | a :: b :: c :: rest =>
    base64Digit (a / 4) :: base64Digit (a % 4 * 16 + b / 16)
      :: base64Digit (b % 16 * 4 + c / 64) :: base64Digit (c % 64)
      :: b64encode rest

/-- Embedding of `ModelRouter.encode_image_to_base64` (router.py lines
93-110): read the file and base64-encode it; a read failure is logged and
re-raised, modelled as `Except.error`. -/
def encode_image_to_base64 (env : Env) (imagePath : String) :
    Except Err String :=
  match env.readFile imagePath with
  | some bytes => .ok (String.mk (b64encode bytes))
  | none => .error (.imageError imagePath)

/-- The data URL built for the vision message (router.py lines 124, 183,
228). -/
def dataUrl (b64 : String) : String := "data:image/png;base64," ++ b64

/-- Embedding of `ModelRouter._classify` (router.py lines 73-91): send the
classification prompt to the router chain and extract the label. -/
def _classify (env : Env) (inputText : String) : String :=
  classifyResult (env.classifierResp (classifyPrompt inputText))

/-! ### `ModelRouter.route` and `ModelRouter.stream_route` -/

/-- Embedding of `ModelRouter.route` (router.py lines 165-209): the result
`(model_type, response)` or the raised error, together with the backend
invocations performed. -/
def route (env : Env) (text : String) (imagePath : Option String) :
    Except Err (String × String) × List Call :=
  if strTruthy imagePath then
    let p := imagePath.getD ""
    match encode_image_to_base64 env p with
    | .error e => (.error e, [])
    | .ok b64 =>
      let url := dataUrl b64
      (.ok ("vision", env.visionResp text url), [.invokeVision text url])
  else
    let prompt := classifyPrompt text
    if classifyResult (env.classifierResp prompt) = "coding" then
      (.ok ("coding", env.codingResp text),
       [.classifyCall prompt, .invokeCoding text])
    else
      (.ok ("general", env.generalResp text),
       [.classifyCall prompt, .invokeGeneral text])

/-- Embedding of `ModelRouter.stream_route` (router.py lines 211-258): the
result `(model_type, stream)` or the raised error, plus the calls made.  The
`stream_with_type` wrapper maps each chunk to its `content`; fragments are
modelled directly as that content. -/
def stream_route (env : Env) (text : String) (imagePath : Option String) :
    Except Err (String × List String) × List Call :=
  if strTruthy imagePath then
    let p := imagePath.getD ""
    match encode_image_to_base64 env p with
    | .error e => (.error e, [])
    | .ok b64 =>
      let url := dataUrl b64
      (.ok ("vision", env.visionFrags text url), [.streamVision text url])
  else
    let prompt := classifyPrompt text
    if classifyResult (env.classifierResp prompt) = "coding" then
      (.ok ("coding", env.codingFrags text),
       [.classifyCall prompt, .streamCoding text])
    else
      (.ok ("general", env.generalFrags text),
       [.classifyCall prompt, .streamGeneral text])

/-! ### Concrete witness environments -/

/-- A concrete deterministic environment used by witnesses. -/
def envW : Env where
  classifierResp := fun _ => "general"
  generalResp := fun _ => "Hello"
  codingResp := fun _ => "code here"
  visionResp := fun _ _ => "a cat"
  generalFrags := fun _ => ["Hel", "lo"]
  codingFrags := fun _ => ["code ", "here"]
  visionFrags := fun _ _ => ["a ", "cat"]
  readFile := fun _ => some [1, 2, 3]

/-- An environment whose classifier backend answers `"vision"`. -/
def envVision : Env := { envW with classifierResp := fun _ => "vision" }

/-- An environment in which no file is readable. -/
def envMissing : Env := { envW with readFile := fun _ => none }

lemma strTruthy_some_of_ne {p : String} (hp : p ≠ "") :
    strTruthy (some p) = true := by
  have h : p.isEmpty = false := by
    cases he : p.isEmpty
    · rfl
    · exact absurd ((String.isEmpty_iff p).mp he) hp
  simp [strTruthy, h]

/-! ### Claim theorems about the router -/

/-- C1: whenever `image_path` is present (non-null, non-empty) and the image
is readable, both `route` and `stream_route` return the label `"vision"` and
dispatch to the vision backend, and the classifier is never invoked,
regardless of the text content. -/
theorem route_image_short_circuits_to_vision (env : Env) (text p : String)
    (bytes : List Nat) (hp : p ≠ "") (hread : env.readFile p = some bytes) :
    route env text (some p)
        = (.ok ("vision",
            env.visionResp text (dataUrl (String.mk (b64encode bytes)))),
           [.invokeVision text (dataUrl (String.mk (b64encode bytes)))]) ∧
    stream_route env text (some p)
        = (.ok ("vision",
            env.visionFrags text (dataUrl (String.mk (b64encode bytes)))),
           [.streamVision text (dataUrl (String.mk (b64encode bytes)))]) ∧
    (∀ s, Call.classifyCall s ∉ (route env text (some p)).2) ∧
    (∀ s, Call.classifyCall s ∉ (stream_route env text (some p)).2) := by
  have htru := strTruthy_some_of_ne hp
  have hr : route env text (some p)
      = (.ok ("vision",
          env.visionResp text (dataUrl (String.mk (b64encode bytes)))),
         [.invokeVision text (dataUrl (String.mk (b64encode bytes)))]) := by
    unfold route
    rw [htru]
    simp [encode_image_to_base64, hread]
  have hs : stream_route env text (some p)
      = (.ok ("vision",
          env.visionFrags text (dataUrl (String.mk (b64encode bytes)))),
         [.streamVision text (dataUrl (String.mk (b64encode bytes)))]) := by
    unfold stream_route
    rw [htru]
    simp [encode_image_to_base64, hread]
  refine ⟨hr, hs, ?_, ?_⟩
  · intro s; rw [hr]; simp
  · intro s; rw [hs]; simp

/-- C1 witness: a concrete readable image request routes to vision. -/
theorem route_image_short_circuits_to_vision_witness :
    (route envW "describe this" (some "cat.png")).1 = .ok ("vision", "a cat")
      := by
  have h := route_image_short_circuits_to_vision envW "describe this"
    "cat.png" [1, 2, 3] (by decide) rfl
  rw [h.1]
  rfl

/-- C2: for a text-only request, `route` yields the label `"coding"` and the
coding backend exactly when the classifier result equals `"coding"`; in every
other case (including `"vision"`, garbage, or the empty string) it yields
`"general"` and the general backend. -/
theorem route_text_coding_iff (env : Env) (text : String) :
    (route env text none
        = (.ok ("coding", env.codingResp text),
           [.classifyCall (classifyPrompt text), .invokeCoding text])
      ↔ _classify env text = "coding") ∧
    (_classify env text = "coding" ∨
      route env text none
        = (.ok ("general", env.generalResp text),
           [.classifyCall (classifyPrompt text), .invokeGeneral text])) := by
  unfold route _classify
  by_cases h : classifyResult (env.classifierResp (classifyPrompt text))
      = "coding"
  · constructor
    · simp [strTruthy, h]
    · exact Or.inl h
  · constructor
    · simp only [strTruthy, Bool.false_eq_true, if_false, h, iff_false]
      intro hcontra
      have h1 : (Except.ok ("general", env.generalResp text)
            : Except Err (String × String))
          = Except.ok ("coding", env.codingResp text) :=
        congrArg Prod.fst hcontra
      injection h1 with h2
      have h3 : ("general" : String) = "coding" := congrArg Prod.fst h2
      exact absurd h3 (by decide)
    · right
      simp [strTruthy, h]

/-- C2 witness: with a classifier answering `"general"`, a concrete text
request routes to the general backend. -/
theorem route_text_coding_iff_witness :
    route envW "What is 2+2?" none
      = (.ok ("general", "Hello"),
         [.classifyCall (classifyPrompt "What is 2+2?"),
          .invokeGeneral "What is 2+2?"]) := by
  rcases (route_text_coding_iff envW "What is 2+2?").2 with h | h
  · exact absurd h (by decide)
  · exact h

/-- C4 counterexample: a backend response of `"vision"` makes `_classify`
return `"vision"`, so the classifier can produce that label. -/
theorem classifier_can_return_vision :
    _classify envVision "describe the scene" = "vision" := by decide

/-- C4 amended: the classifier can return `"vision"`, but the router never
assigns the label `"vision"` to a text-only request — any classifier result
other than `"coding"` (including `"vision"`) routes to the general
backend. -/
theorem route_text_label_never_vision (env : Env) (text : String) :
    ((route env text none).1 = .ok ("coding", env.codingResp text) ∨
      (route env text none).1 = .ok ("general", env.generalResp text)) ∧
    ∀ r, (route env text none).1 ≠ .ok ("vision", r) := by
  have hbase : (route env text none).1
        = .ok ("coding", env.codingResp text) ∨
      (route env text none).1 = .ok ("general", env.generalResp text) := by
    unfold route
    by_cases h : classifyResult (env.classifierResp (classifyPrompt text))
        = "coding"
    · left; simp [strTruthy, h]
    · right; simp [strTruthy, h]
  refine ⟨hbase, ?_⟩
  intro r hr
  rcases hbase with hb | hb
  · rw [hb] at hr
    injection hr with h3
    have h4 : ("coding" : String) = "vision" := congrArg Prod.fst h3
    exact absurd h4 (by decide)
  · rw [hb] at hr
    injection hr with h3
    have h4 : ("general" : String) = "vision" := congrArg Prod.fst h3
    exact absurd h4 (by decide)

/-- C4 amended witness: even with the classifier backend answering
`"vision"`, the concrete text-only request is not routed to vision. -/
theorem route_text_label_never_vision_witness :
    (route envVision "describe the scene" none).1
      ≠ Except.ok ("vision", "a cat") :=
  (route_text_label_never_vision envVision "describe the scene").2 "a cat"

/-- Coherence of a deterministic backend: for every input, concatenating the
streamed fragments gives the complete response. -/
def DeterministicEnv (env : Env) : Prop :=
  (∀ t, String.join (env.generalFrags t) = env.generalResp t) ∧
  (∀ t, String.join (env.codingFrags t) = env.codingResp t) ∧
  (∀ t u, String.join (env.visionFrags t u) = env.visionResp t u)

/-- C3: against a deterministic backend, `route` and `stream_route` agree on
every input — same label (or same error), and the concatenation of the
streamed fragments equals the synchronous response text. -/
theorem stream_route_refines_route (env : Env) (text : String)
    (imagePath : Option String) (hdet : DeterministicEnv env) :
    (route env text imagePath).1
      = Except.map (fun lr => (lr.1, String.join lr.2))
          (stream_route env text imagePath).1 := by
  rcases hdet with ⟨hg, hc, hv⟩
  unfold route stream_route
  by_cases him : strTruthy imagePath
  · cases henc : encode_image_to_base64 env (imagePath.getD "") with
    | error e => simp [him, henc, Except.map]
    | ok b64 => simp [him, henc, Except.map, hv]
  · by_cases hcl : classifyResult (env.classifierResp (classifyPrompt text))
        = "coding"
    · simp [him, hcl, Except.map, hc]
    · simp [him, hcl, Except.map, hg]

/-- C3 witness: the agreement at a concrete deterministic environment. -/
theorem stream_route_refines_route_witness :
    (route envW "hi" none).1
      = Except.map (fun lr => (lr.1, String.join lr.2))
          (stream_route envW "hi" none).1 :=
  stream_route_refines_route envW "hi" none
    ⟨fun _ => rfl, fun _ => rfl, fun _ _ => rfl⟩

/-! ### `InferenceService` (inference_service.py)

Log records are modelled structurally: the structured JSON summary record
`{model_type, input_text, image_path, response}` written by `json.dumps`
becomes the `summary` constructor; the f-string info/debug/error lines, which
carry no `response` field, become plain message entries. -/

/-- A log record emitted by the inference service. -/
inductive LogEntry
  | infoMsg (msg : String)
  | debugMsg (msg : String)
  | errorMsg (msg : String)
  | summary (modelType : String) (inputText : String)
      (imagePath : Option String) (response : String)
deriving DecidableEq, Repr

/-- One step of the `run_stream` generator's execution trace: either a chunk
yielded to the consumer or a log record emitted. -/
inductive StreamEvent
  | yieldChunk (chunk : String)
  | logEvent (e : LogEntry)
deriving DecidableEq, Repr

/-- The per-chunk events of the `run_stream` loop (inference_service.py lines
42-45): a debug log, then the yield, for each fragment in order. -/
def chunkEvents (frags : List String) : List StreamEvent :=
  frags.flatMap fun c =>
    [.logEvent (.debugMsg ("Streamed chunk: " ++ c)), .yieldChunk c]

/-- Embedding of `InferenceService.run_stream` (inference_service.py lines
27-57) as the full execution trace of the generator body: the opening info
log, the chunk loop, and — only after the loop completes — the structured
summary record over the joined chunks.  On a `stream_route` failure the
error is logged and re-raised. -/
def run_stream (env : Env) (text : String) (imagePath : Option String) :
    List StreamEvent :=
  match (stream_route env text imagePath).1 with
  | .error _ =>
    [.logEvent (.infoMsg "Running stream inference"),
     .logEvent (.errorMsg "Stream inference failed")]
  | .ok (modelType, frags) =>
    .logEvent (.infoMsg "Running stream inference")
      :: chunkEvents frags
      ++ [.logEvent (.summary modelType text imagePath (String.join frags))]

/-- Generator semantics of partial consumption: the events that actually
execute when the consumer requests `k` fragments and then closes the
generator.  A pending request drives execution through log events up to and
including the next yield; after the final granted request nothing further
runs. -/
def runToYield : Nat → List StreamEvent → List StreamEvent
  | _, [] => []
  | 0, _ :: _ => []
  | k + 1, .yieldChunk c :: rest => .yieldChunk c :: runToYield k rest
  | k + 1, .logEvent e :: rest => .logEvent e :: runToYield (k + 1) rest

/-- Is this event a structured summary record (the only log record with a
`response` field)? -/
def isSummaryEvent : StreamEvent → Bool
  | .logEvent (.summary _ _ _ _) => true
  | _ => false

/-- The summary records of a trace. -/
def summariesOf (tr : List StreamEvent) : List StreamEvent :=
  tr.filter isSummaryEvent

/-- The fragments yielded to the consumer, in order. -/
def yieldsOf (tr : List StreamEvent) : List String :=
  tr.filterMap fun e =>
    match e with
    | .yieldChunk c => some c
    | .logEvent _ => none

/-- Embedding of `InferenceService.run` (inference_service.py lines 59-84):
result or re-raised error, the service's log records, and the backend calls
performed underneath. -/
def run (env : Env) (text : String) (imagePath : Option String) :
    Except Err String × List LogEntry × List Call :=
  let routed := route env text imagePath
  match routed.1 with
  | .ok (modelType, result) =>
    (.ok result,
     [.infoMsg "Running inference",
      .summary modelType text imagePath result,
      .infoMsg "Inference completed successfully."],
     routed.2)
  | .error e =>
    (.error e,
     [.infoMsg "Running inference", .errorMsg "Inference failed"],
     routed.2)

/-- The summary records among plain log entries. -/
def summaryRecords (logs : List LogEntry) : List LogEntry :=
  logs.filter fun e =>
    match e with
    | .summary _ _ _ _ => true
    | _ => false

/-! ### Supporting lemmas for the streaming trace -/

lemma summariesOf_chunkEvents (frags : List String) :
    summariesOf (chunkEvents frags) = [] := by
  induction frags with
  | nil => rfl
  | cons c rest ih =>
    simp only [chunkEvents, List.flatMap_cons] at *
    simpa [summariesOf, List.filter_append, isSummaryEvent] using ih

lemma yieldsOf_chunkEvents (frags : List String) :
    yieldsOf (chunkEvents frags) = frags := by
  induction frags with
  | nil => rfl
  | cons c rest ih =>
    simp only [chunkEvents, List.flatMap_cons] at *
    simpa [yieldsOf, List.filterMap_append] using ih

lemma summariesOf_runToYield_chunkEvents (frags : List String) :
    ∀ (k : Nat), k < frags.length → ∀ (tail : List StreamEvent),
      summariesOf (runToYield k (chunkEvents frags ++ tail)) = [] := by
  induction frags with
  | nil => intro k hk; exact absurd hk (by simp)
  | cons c rest ih =>
    intro k hk tail
    cases k with
    | zero => rfl
    | succ j =>
      simp only [chunkEvents, List.flatMap_cons, List.cons_append,
        List.append_assoc] at *
      rw [runToYield, runToYield]
      have hj : j < rest.length := by simpa using hk
      simpa [summariesOf, List.filter, isSummaryEvent] using ih j hj tail

/-- C6: for every successfully started streaming call, fully draining the
sequence emits exactly one summary record, whose response equals the
concatenation, in emission order, of all fragments yielded to the consumer;
a consumer stopping before the last fragment sees no summary record at
all. -/
theorem run_stream_summary_iff_drained (env : Env) (text : String)
    (imagePath : Option String) (modelType : String) (frags : List String)
    (hok : (stream_route env text imagePath).1 = .ok (modelType, frags)) :
    summariesOf (run_stream env text imagePath)
        = [.logEvent (.summary modelType text imagePath
            (String.join (yieldsOf (run_stream env text imagePath))))] ∧
    ∀ k, k < (yieldsOf (run_stream env text imagePath)).length →
      summariesOf (runToYield k (run_stream env text imagePath)) = [] := by
  have htr : run_stream env text imagePath
      = .logEvent (.infoMsg "Running stream inference")
          :: chunkEvents frags
          ++ [.logEvent (.summary modelType text imagePath
              (String.join frags))] := by
    unfold run_stream
    rw [hok]
  have hyields : yieldsOf (run_stream env text imagePath) = frags := by
    rw [htr]
    simp [yieldsOf, List.filterMap_append]
    simpa [yieldsOf] using yieldsOf_chunkEvents frags
  constructor
  · rw [hyields, htr]
    have hch : List.filter isSummaryEvent (chunkEvents frags) = [] :=
      summariesOf_chunkEvents frags
    simp [summariesOf, List.filter_append, hch, isSummaryEvent]
  · intro k hk
    rw [hyields] at hk
    rw [htr]
    cases k with
    | zero => rfl
    | succ j =>
      rw [List.cons_append, runToYield]
      have := summariesOf_runToYield_chunkEvents frags (j + 1) hk
        [.logEvent (.summary modelType text imagePath (String.join frags))]
      simpa [summariesOf, List.filter, isSummaryEvent] using this

/-- C6 witness: the concrete two-fragment stream emits one summary record
with the concatenated response when drained, and none when the consumer
stops after one fragment. -/
theorem run_stream_summary_iff_drained_witness :
    summariesOf (run_stream envW "hi" none)
        = [.logEvent (.summary "general" "hi" none "Hello")] ∧
    summariesOf (runToYield 1 (run_stream envW "hi" none)) = [] := by
  have h := run_stream_summary_iff_drained envW "hi" none "general"
    ["Hel", "lo"] rfl
  refine ⟨?_, h.2 1 (by decide)⟩
  rw [h.1]
  decide

/-- C7: when the image file named by a non-empty `image_path` is missing,
`route` raises the I/O error from the encode step before invoking any
backend, and the service's `run` re-raises it after an error log, emitting
no log record carrying a `response` field. -/
theorem run_missing_image_no_summary (env : Env) (text p : String)
    (hp : p ≠ "") (hmiss : env.readFile p = none) :
    run env text (some p)
        = (.error (.imageError p),
           [.infoMsg "Running inference", .errorMsg "Inference failed"],
           []) ∧
    summaryRecords (run env text (some p)).2.1 = [] ∧
    (run env text (some p)).2.2 = [] := by
  have htru := strTruthy_some_of_ne hp
  have hroute : route env text (some p) = (.error (.imageError p), []) := by
    unfold route
    rw [htru]
    simp [encode_image_to_base64, hmiss]
  have hrun : run env text (some p)
      = (.error (.imageError p),
         [.infoMsg "Running inference", .errorMsg "Inference failed"],
         []) := by
    unfold run
    rw [hroute]
  refine ⟨hrun, ?_, ?_⟩
  · rw [hrun]; rfl
  · rw [hrun]

/-- C7 witness: the concrete missing image aborts the call with no summary
record and no backend invocation. -/
theorem run_missing_image_no_summary_witness :
    run envMissing "describe this" (some "missing.png")
        = (.error (.imageError "missing.png"),
           [.infoMsg "Running inference", .errorMsg "Inference failed"],
           []) :=
  (run_missing_image_no_summary envMissing "describe this" "missing.png"
    (by decide) rfl).1

/-! ### `handle_image` (utils/image_handler.py)

The filesystem is an explicit parameter (`os.path.isfile`).  The regex
`<image>(.*?)<image>` is embedded as a left-to-right scan with lazy closing
in which `.` does not cross a newline, matching `re` semantics for this
pattern.  `shutil.copy` and the `os.path.abspath` same-file check only
decide whether a copy is performed; they do not affect the returned pair,
so they are not tracked. -/

/-- The characters of the literal `<image>` delimiter. -/
def imageTagChars : List Char := "<image>".data

/-- Lazy search for the closing `<image>` delimiter: `acc` holds the group
characters consumed so far (reversed); the close is taken at the earliest
position, and a newline aborts the attempt (as `.` does not match `\n`).
Returns the group and the characters after the closing delimiter. -/
def grabGroup (acc : List Char) : List Char → Option (List Char × List Char)
  | [] => none
  | c :: rs =>
    if imageTagChars.isPrefixOf (c :: rs) then
      some (acc.reverse, (c :: rs).drop imageTagChars.length)
    else if c == '\n' then none
    else grabGroup (c :: acc) rs

/-- Embedding of `re.search(r"<image>(.*?)<image>", text)`: the first group
captured, scanning start positions left to right. -/
def searchImageTag : List Char → Option (List Char)
  | [] => none
  | c :: rs =>
    if imageTagChars.isPrefixOf (c :: rs) then
      match grabGroup [] ((c :: rs).drop imageTagChars.length) with
      | some (g, _) => some g
      | none => searchImageTag rs
    else searchImageTag rs

/-- Embedding of `re.sub(r"<image>.*?<image>", "", text)`: remove every
match, scanning left to right; fuel bounds the scan by the input length. -/
def subImageTagsAux : Nat → List Char → List Char
  | 0, cs => cs
  | _ + 1, [] => []
  | fuel + 1, c :: rs =>
    if imageTagChars.isPrefixOf (c :: rs) then
      match grabGroup [] ((c :: rs).drop imageTagChars.length) with
      | some (_, rest) => subImageTagsAux fuel rest
      | none => c :: subImageTagsAux fuel rs
    else c :: subImageTagsAux fuel rs

/-- All inline `<image>...<image>` matches removed. -/
def subImageTags (cs : List Char) : List Char := subImageTagsAux cs.length cs

/-- Does the text still contain an inline `<image>...<image>` tag? -/
def hasInlineImageTag (s : String) : Bool := (searchImageTag s.data).isSome

/-- Embedding of `os.path.basename` (POSIX separator). -/
def basename (p : String) : String :=
  match (p.splitOn "/").getLast? with
  | some b => b
  | none => p

/-- The filesystem as seen by `handle_image` (`os.path.isfile`). -/
structure Fs where
  isFile : String → Bool

/-- Embedding of `handle_image` (image_handler.py lines 11-61): returns the
pair `(updated_text, image_path or None)`. -/
def handle_image (fs : Fs) (input_text : Option String)
    (input_image : Option String) : Option String × Option String :=
  if !strTruthy input_image && strTruthy input_text then
    let t := input_text.getD ""
    match searchImageTag t.data with
    | some g =>
      let image_path := pyStrip (String.mk g)
      if fs.isFile image_path then
        let dest_path := "assets/" ++ basename image_path
        (some (pyStrip (String.mk (subImageTags t.data))), some dest_path)
      else
        (input_text, none)
    | none => (input_text, input_image)
  else if strTruthy input_image then
    let image_path := pyStrip (input_image.getD "")
    if fs.isFile image_path then
      let dest_path := "assets/" ++ basename image_path
      (input_text, some dest_path)
    else
      (input_text, none)
  else
    (input_text, input_image)

/-- A filesystem on which no path is a file. -/
def fsNone : Fs := ⟨fun _ => false⟩

/-- The concrete text carrying an inline tag for a missing image. -/
def tagTextW : String := "describe this <image>missing.png<image>"

/-- C8 counterexample: with the image file missing, `handle_image` attaches
no image but returns the text unchanged — the inline `<image>` tag is still
present, contradicting the claim that it is stripped. -/
theorem handle_image_missing_keeps_tag :
    handle_image fsNone (some tagTextW) none = (some tagTextW, none) ∧
    hasInlineImageTag tagTextW = true := by decide

/-- C8 amended: when the referenced image file does not exist — whether the
reference came from an inline `<image>` tag or from an explicit image
argument — the result carries no image path and the text is returned
unchanged; inline tags are not stripped. -/
theorem handle_image_missing_no_strip (fs : Fs) (t p : String)
    (g : List Char) (ht : t ≠ "") (hp : p ≠ "")
    (htag : searchImageTag t.data = some g)
    (hmiss1 : fs.isFile (pyStrip (String.mk g)) = false)
    (hmiss2 : fs.isFile (pyStrip p) = false) :
    handle_image fs (some t) none = (some t, none) ∧
    handle_image fs (some t) (some p) = (some t, none) := by
  have htt : strTruthy (some t) = true := strTruthy_some_of_ne ht
  have hpt : strTruthy (some p) = true := strTruthy_some_of_ne hp
  constructor
  · unfold handle_image
    rw [htt]
    simp only [strTruthy, Bool.not_false, Bool.and_true, Bool.true_and,
      if_true, Option.getD_some]
    rw [htag]
    simp [hmiss1]
  · unfold handle_image
    rw [hpt]
    simp only [strTruthy, Bool.not_true, Bool.false_and, Bool.and_false,
      Bool.false_eq_true, if_false, if_true, Option.getD_some]
    rw [hmiss2]
    simp

/-- C8 amended witness: the concrete missing references leave the text
unchanged with no image attached. -/
theorem handle_image_missing_no_strip_witness :
    handle_image fsNone (some tagTextW) none = (some tagTextW, none) ∧
    handle_image fsNone (some tagTextW) (some "missing.png")
      = (some tagTextW, none) :=
  handle_image_missing_no_strip fsNone tagTextW "missing.png"
    "missing.png".data (by decide) (by decide) (by decide) rfl rfl

/-! ### `ModelRouter._load_models` (router.py lines 36-71) -/

/-- The model names held by the router after `_load_models`: the three role
bindings and the classifier's router model. -/
structure RouterModels where
  general : String
  coding : String
  vision : String
  routerModel : String
deriving DecidableEq, Repr

/-- The three role bindings with defaults applied (router.py lines 44-52):
config value if present, else the declared default. -/
def resolvedBindings (cfg : String → Option String) :
    String × String × String :=
  ((cfg "MODEL_GENERAL").getD "llama3.2:3b",
   (cfg "MODEL_CODING").getD "qwen2.5-coder:3b",
   (cfg "MODEL_VISION").getD "llava-phi3")

/-- Python `cfg[key]`: the value, or a raised `KeyError`. -/
def dictGetItem (cfg : String → Option String) (key : String) :
    Except Err String :=
  match cfg key with
  | some v => .ok v
  | none => .error (.keyError key)

/-- Embedding of `ModelRouter._load_models`: the three role bindings use
`cfg.get` with defaults (never failing), but the router model is then read
with `cfg["MODEL_GENERAL"]` (router.py line 62), which raises `KeyError`
when the key is absent. -/
def _load_models (cfg : String → Option String) : Except Err RouterModels :=
  let b := resolvedBindings cfg
  match dictGetItem cfg "MODEL_GENERAL" with
  | .ok rm => .ok ⟨b.1, b.2.1, b.2.2, rm⟩
  | .error e => .error e

/-- C10: constructing the router from a configuration lacking
`"MODEL_GENERAL"` raises `KeyError`, even though the declared defaults were
applied to the three role bindings (the general binding got its default). -/
theorem load_models_missing_general_raises (cfg : String → Option String)
    (h : cfg "MODEL_GENERAL" = none) :
    _load_models cfg = .error (.keyError "MODEL_GENERAL") ∧
    (resolvedBindings cfg).1 = "llama3.2:3b" := by
  constructor
  · unfold _load_models dictGetItem
    rw [h]
  · unfold resolvedBindings
    rw [h]
    rfl

/-- C10 witness: the empty configuration raises `KeyError` while all three
role bindings resolved to their declared defaults. -/
theorem load_models_missing_general_raises_witness :
    _load_models (fun _ => none) = .error (.keyError "MODEL_GENERAL") ∧
    resolvedBindings (fun _ => none)
      = ("llama3.2:3b", "qwen2.5-coder:3b", "llava-phi3") :=
  ⟨(load_models_missing_general_raises (fun _ => none) rfl).1, rfl⟩

end MiniModelVault
